import Mathlib

/-!
Shallow embedding of `src/server/util.ts` from the zipline repository:
the migration-bootstrap procedure `migrations()` and the statistics
aggregator `getStats()`, together with proofs about them.
-/

namespace Zipline

/-- A JavaScript error value; only the `message` field is consulted by the
catch block of `migrations` (`error.message.startsWith('P1001')`). -/
structure JsError where
  message : String
  deriving DecidableEq, Repr

/-- Outcome of `migrate.diagnoseMigrationHistory`, as read by the source
through `diagnose.history?.diagnostic`.  A null `history` is the up-to-date
case; the string `'databaseIsBehind'` is the only value the source tests
for; every other diagnostic (history diverged from the expected lineage)
is collapsed into `driftedOrUnknown`. -/
inductive DiagnosticOutcome where
  | upToDate
  | databaseIsBehind
  | driftedOrUnknown
  deriving DecidableEq, Repr

/-- State of the backing database: whether it exists and the ordered list of
migration identifiers recorded as applied. -/
structure DbState where
  dbExists : Bool
  applied : List String
  deriving DecidableEq, Repr

/-- Modelled from the spec: the persistence engine (`@prisma/migrate`) is an
external collaborator, so its diagnosis is modelled from the spec's
`DiagnosticResult` variants: equal history is `upToDate`, a history that is
a proper prefix of the expected lineage is `databaseIsBehind`, and anything
else is `driftedOrUnknown`. -/
def diagnoseMigrationHistory (lineage applied : List String) : DiagnosticOutcome :=
  if applied = lineage then .upToDate
  else if lineage.take applied.length = applied then .databaseIsBehind
  else .driftedOrUnknown

/-- One invocation environment for `migrations()`: the expected migration
lineage, the `DATABASE_URL` environment value, the initial database state,
and the fault, if any, that each external call throws (`ensureDatabaseExists`,
`diagnoseMigrationHistory`, and `applyMigrations`; for the latter the fault
carries how many pending migrations were applied before the engine threw). -/
structure MigrationsWorld where
  lineage : List String
  databaseUrl : String
  db : DbState
  ensureFault : Option JsError
  diagnoseFault : Option JsError
  applyFault : Option (Nat × JsError)
  deriving DecidableEq, Repr

/-- Observable outcome of one `migrations()` call: final database state,
whether `migrate.stop()` ran, the `process.exit` code (`none` means the
function returned normally), whether `migrate.applyMigrations()` was issued,
how many migrations this call applied, and the error-log lines emitted by
the catch block. -/
structure RunResult where
  db : DbState
  stopped : Bool
  exitCode : Option Nat
  applyCalled : Bool
  appliedNow : Nat
  errorLogs : List String
  deriving DecidableEq, Repr

/-- The distinct unreachable-database message of the catch block, with the
configured connection string interpolated. -/
def unreachableMessage (url : String) : String :=
  "Unable to connect to database `" ++ url ++ "`, check your database connection"

/-- The generic migration-failure message of the catch block. -/
def genericFailureMessage : String :=
  "Failed to migrate database... exiting..."

/-- Model of JavaScript `String.prototype.startsWith`, stated over the
character lists of the strings. -/
def jsStartsWith (s pre : String) : Bool :=
  pre.data.isPrefixOf s.data

/-- The catch block of `migrations`: a `P1001`-prefixed error message selects
the distinct unreachable-database log line, anything else the generic line
followed by the error detail. -/
def catchLogs (url : String) (e : JsError) : List String :=
  if jsStartsWith e.message ("P1001") then [unreachableMessage url]
  else [genericFailureMessage, e.message]

/-- Embedding of `migrations()` (`src/server/util.ts`).  Control flow of the
source: `ensureDatabaseExists` (creates the database if absent, may throw),
`diagnoseMigrationHistory` (may throw), then apply pending migrations inside
`try/finally { migrate.stop() }` when the diagnostic is `databaseIsBehind`,
else `migrate.stop()` directly; any thrown error reaches the catch block,
which logs and calls `process.exit(1)` without any further cleanup. -/
def migrations (w : MigrationsWorld) : RunResult :=
  match w.ensureFault with
  | some e =>
    { db := w.db, stopped := false, exitCode := some 1, applyCalled := false,
      appliedNow := 0, errorLogs := catchLogs w.databaseUrl e }
  | none =>
    let db1 : DbState := { w.db with dbExists := true }
    match w.diagnoseFault with
    | some e =>
      { db := db1, stopped := false, exitCode := some 1, applyCalled := false,
        appliedNow := 0, errorLogs := catchLogs w.databaseUrl e }
    | none =>
      if diagnoseMigrationHistory w.lineage db1.applied = .databaseIsBehind then
        let pending := w.lineage.drop db1.applied.length
        match w.applyFault with
        | some (n, e) =>
          { db := { db1 with applied := db1.applied ++ pending.take n },
            stopped := true, exitCode := some 1, applyCalled := true,
            appliedNow := (pending.take n).length,
            errorLogs := catchLogs w.databaseUrl e }
        | none =>
          { db := { db1 with applied := db1.applied ++ pending },
            stopped := true, exitCode := none, applyCalled := true,
            appliedNow := pending.length, errorLogs := [] }
      else
        { db := db1, stopped := true, exitCode := none, applyCalled := false,
          appliedNow := 0, errorLogs := [] }

/-! ### Statistics aggregator (`getStats`) -/

/-- An `image` row of the store, with the fields `getStats` reads. -/
structure Image where
  userId : Nat
  mimetype : String
  views : Nat
  deriving DecidableEq, Repr

/-- A `user` row of the store, with the fields `getStats` reads. -/
structure User where
  id : Nat
  username : String
  deriving DecidableEq, Repr

/-- The relational store seen by `getStats`: the `image` and `user` tables. -/
structure Store where
  images : List Image
  users : List User
  deriving DecidableEq, Repr

/-- Keys of a list in order of first occurrence, each kept once. -/
def dedupFirst {α : Type} [DecidableEq α] : List α → List α
  | [] => []
  | x :: xs => x :: (dedupFirst xs).filter (fun y => y ≠ x)

/-- Model of a `prisma.image.groupBy` call with a `_count`: one row per
distinct key (in order of first occurrence, a fixed representative of the
unspecified engine order), paired with the number of rows carrying it. -/
def groupByKey {κ : Type} [DecidableEq κ] (key : Image → κ) (l : List Image) :
    List (κ × Nat) :=
  (dedupFirst (l.map key)).map (fun k => (k, (l.filter (fun x => key x = k)).length))

/-- `prisma.image.groupBy({ by: ['userId'], _count: { _all: true } })`. -/
def groupByUserId (l : List Image) : List (Nat × Nat) :=
  groupByKey Image.userId l

/-- `prisma.image.groupBy({ by: ['mimetype'], _count: { mimetype: true } })`. -/
def groupByMimetype (l : List Image) : List (String × Nat) :=
  groupByKey Image.mimetype l

/-- `prisma.image.aggregate({ _sum: { views: true } })`: the summed counter,
null (`none`) when there are no rows to aggregate. -/
def aggViews (l : List Image) : Option Nat :=
  if l.isEmpty then none else some (l.map Image.views).sum

/-- One entry of `count_by_user`. -/
structure UserCount where
  username : String
  count : Nat
  deriving DecidableEq, Repr

/-- One entry of `types_count`. -/
structure TypeCount where
  mimetype : String
  count : Nat
  deriving DecidableEq, Repr

/-- The TypeError raised by `user.username` when `prisma.user.findFirst`
returned null. -/
def nullUserError : JsError :=
  { message := "TypeError: Cannot read properties of null (reading 'username')" }

/-- The `for` loop of `getStats` building `count_by_user`: for each group row
it looks the owner up with `prisma.user.findFirst({ where: { id } })` and
dereferences `user.username` with no null check, so a missing owner raises. -/
def countByUser (users : List User) : List (Nat × Nat) → Except JsError (List UserCount)
  | [] => .ok []
  | g :: gs =>
    match users.find? (fun u => u.id = g.1) with
    | none => .error nullUserError
    | some u =>
      match countByUser users gs with
      | .error e => .error e
      | .ok rest => .ok ({ username := u.username, count := g.2 } :: rest)

/-- Model of JavaScript `Array.prototype.sort` with the comparator
`(a, b) => b.count - a.count`: a stable sort, descending by count. -/
def sortByCountDesc {α : Type} (count : α → Nat) (l : List α) : List α :=
  List.insertionSort (fun a b => count b ≤ count a) l

/-- The value returned by `getStats`. -/
structure Stats where
  size : String
  size_num : Nat
  count : Nat
  count_by_user : List UserCount
  count_users : Nat
  views_count : Nat
  types_count : List TypeCount
  deriving DecidableEq, Repr

/-- Embedding of `getStats(prisma, datasource)` (`src/server/util.ts`).
`bth` stands for the external helper `bytesToHuman`, `dsFullSize` for
`datasource.fullSize()`.  The owner-lookup loop is the only failure source
kept in this fault-free embedding; any raised error aborts the whole call. -/
def getStats (bth : Nat → String) (dsFullSize : Nat) (s : Store) :
    Except JsError Stats :=
  let size := dsFullSize
  let byUser := groupByUserId s.images
  let count_users := s.users.length
  match countByUser s.users byUser with
  | .error e => .error e
  | .ok count_by_user =>
    .ok
      { size := bth size
        size_num := size
        count := s.images.length
        count_by_user := sortByCountDesc UserCount.count count_by_user
        count_users := count_users
        views_count := (aggViews s.images).getD 0
        types_count := sortByCountDesc TypeCount.count
          ((groupByMimetype s.images).map
            (fun g => { mimetype := g.1, count := g.2 })) }

/-- Fault injection for the store engine behind each sub-query of `getStats`
(an awaited promise rejecting).  `findUserErr` is indexed by the owner id
being looked up. -/
structure QueryFaults where
  fullSizeErr : Option JsError
  groupByUserErr : Option JsError
  countUsersErr : Option JsError
  findUserErr : Nat → Option JsError
  countErr : Option JsError
  aggregateErr : Option JsError
  groupByTypeErr : Option JsError

/-- The fault-free engine. -/
def noFaults : QueryFaults :=
  { fullSizeErr := none, groupByUserErr := none, countUsersErr := none,
    findUserErr := fun _ => none, countErr := none, aggregateErr := none,
    groupByTypeErr := none }

/-- The owner-lookup loop under fault injection: each `findFirst` may itself
reject before the null dereference is reached. -/
def countByUserE (f : QueryFaults) (users : List User) :
    List (Nat × Nat) → Except JsError (List UserCount)
  | [] => .ok []
  | g :: gs =>
    match f.findUserErr g.1 with
    | some e => .error e
    | none =>
      match users.find? (fun u => u.id = g.1) with
      | none => .error nullUserError
      | some u =>
        match countByUserE f users gs with
        | .error e => .error e
        | .ok rest => .ok ({ username := u.username, count := g.2 } :: rest)

/-- `getStats` under fault injection: each awaited sub-query, in source
order, may reject, and a rejection aborts the whole call with that error. -/
def getStatsE (f : QueryFaults) (bth : Nat → String) (dsFullSize : Nat)
    (s : Store) : Except JsError Stats :=
  match f.fullSizeErr with
  | some e => .error e
  | none =>
    match f.groupByUserErr with
    | some e => .error e
    | none =>
      match f.countUsersErr with
      | some e => .error e
      | none =>
        match countByUserE f s.users (groupByUserId s.images) with
        | .error e => .error e
        | .ok count_by_user =>
          match f.countErr with
          | some e => .error e
          | none =>
            match f.aggregateErr with
            | some e => .error e
            | none =>
              match f.groupByTypeErr with
              | some e => .error e
              | none =>
                .ok
                  { size := bth dsFullSize
                    size_num := dsFullSize
                    count := s.images.length
                    count_by_user := sortByCountDesc UserCount.count count_by_user
                    count_users := s.users.length
                    views_count := (aggViews s.images).getD 0
                    types_count := sortByCountDesc TypeCount.count
                      ((groupByMimetype s.images).map
                        (fun g => { mimetype := g.1, count := g.2 })) }

/-! ### Concrete invocation environments -/

/-- A store whose recorded history matches no prefix of the expected
lineage: the diagnosis is `driftedOrUnknown`. -/
def driftWorld : MigrationsWorld :=
  { lineage := ["0001_init"], databaseUrl := "postgres://localhost:5432/zipline",
    db := { dbExists := true, applied := ["9999_rogue"] },
    ensureFault := none, diagnoseFault := none, applyFault := none }

/-- An invocation in which `diagnoseMigrationHistory` itself throws. -/
def diagnoseFaultWorld : MigrationsWorld :=
  { lineage := ["0001_init"], databaseUrl := "postgres://localhost:5432/zipline",
    db := { dbExists := true, applied := [] },
    ensureFault := none, diagnoseFault := some { message := "engine panic" },
    applyFault := none }

/-- A freshly created empty database below a two-step lineage. -/
def freshWorld : MigrationsWorld :=
  { lineage := ["0001_init", "0002_users"],
    databaseUrl := "postgres://localhost:5432/zipline",
    db := { dbExists := false, applied := [] },
    ensureFault := none, diagnoseFault := none, applyFault := none }

/-- An invocation whose `ensureDatabaseExists` call rejects with a
`P1001`-prefixed (connection unreachable) error. -/
def p1001World : MigrationsWorld :=
  { lineage := ["0001_init"], databaseUrl := "postgres://localhost:5432/zipline",
    db := { dbExists := true, applied := [] },
    ensureFault := some { message := "P1001: Cannot reach database server" },
    diagnoseFault := none, applyFault := none }

/-- A behind store (one of three migrations applied) whose apply step throws
after one further migration has been applied. -/
def behindFaultWorld : MigrationsWorld :=
  { lineage := ["0001_init", "0002_users", "0003_urls"],
    databaseUrl := "postgres://localhost:5432/zipline",
    db := { dbExists := true, applied := ["0001_init"] },
    ensureFault := none, diagnoseFault := none,
    applyFault := some (1, { message := "column already exists" }) }

/-- Some sub-query of `getStatsE` rejects: one of the engine faults is set,
where a `findFirst` fault counts only if its owner id is actually queried
(it appears among the group-by keys). -/
def hasQueryFault (f : QueryFaults) (s : Store) : Prop :=
  f.fullSizeErr ≠ none ∨ f.groupByUserErr ≠ none ∨ f.countUsersErr ≠ none ∨
  (∃ g ∈ groupByUserId s.images, f.findUserErr g.1 ≠ none) ∨
  f.countErr ≠ none ∨ f.aggregateErr ≠ none ∨ f.groupByTypeErr ≠ none

/-- A stand-in for the external `bytesToHuman` helper when a concrete
function is needed. -/
def constBth : Nat → String := fun _ => "n/a"

/-- Store matching the worked example of the spec: user 1 owns two png
objects, user 2 owns one json object. -/
def sampleStore : Store :=
  { images :=
      [ { userId := 1, mimetype := "image/png", views := 3 },
        { userId := 1, mimetype := "image/png", views := 4 },
        { userId := 2, mimetype := "application/json", views := 0 } ],
    users := [ { id := 1, username := "alice" }, { id := 2, username := "bob" } ] }

/-- The report `getStats` produces on `sampleStore` with a 12-byte
datasource. -/
def sampleStats : Stats :=
  { size := "n/a", size_num := 12, count := 3,
    count_by_user := [ { username := "alice", count := 2 },
                       { username := "bob", count := 1 } ],
    count_users := 2, views_count := 7,
    types_count := [ { mimetype := "image/png", count := 2 },
                     { mimetype := "application/json", count := 1 } ] }

/-- Store with an object whose owner id (7) has no matching user row. -/
def orphanStore : Store :=
  { images := [ { userId := 7, mimetype := "image/png", views := 1 } ],
    users := [ { id := 1, username := "alice" } ] }

/-- An engine whose datasource size query rejects. -/
def faultyEngine : QueryFaults :=
  { noFaults with fullSizeErr := some { message := "ECONNRESET" } }

/-! ### Helper lemmas -/

theorem diagnose_self (l : List String) :
    diagnoseMigrationHistory l l = .upToDate := by
  simp [diagnoseMigrationHistory]

theorem migrations_run_upToDate (w : MigrationsWorld)
    (he : w.ensureFault = none) (hd : w.diagnoseFault = none)
    (hu : w.db.applied = w.lineage) :
    (migrations w).applyCalled = false ∧ (migrations w).db.applied = w.lineage ∧
    (migrations w).exitCode = none ∧ (migrations w).appliedNow = 0 ∧
    (migrations w).stopped = true := by
  simp [migrations, he, hd, hu, diagnose_self]

theorem behind_take_eq (w : MigrationsWorld)
    (hb : diagnoseMigrationHistory w.lineage w.db.applied = .databaseIsBehind) :
    w.lineage.take w.db.applied.length = w.db.applied := by
  by_cases h1 : w.db.applied = w.lineage
  · simp [h1]
  · by_cases h2 : w.lineage.take w.db.applied.length = w.db.applied
    · exact h2
    · simp [diagnoseMigrationHistory, h1, h2] at hb

theorem behind_append_drop (w : MigrationsWorld)
    (hb : diagnoseMigrationHistory w.lineage w.db.applied = .databaseIsBehind) :
    w.db.applied ++ w.lineage.drop w.db.applied.length = w.lineage := by
  conv_rhs => rw [← List.take_append_drop w.db.applied.length w.lineage]
  rw [behind_take_eq w hb]

theorem migrations_run_behind_ok (w : MigrationsWorld)
    (he : w.ensureFault = none) (hd : w.diagnoseFault = none)
    (hb : diagnoseMigrationHistory w.lineage w.db.applied = .databaseIsBehind)
    (ha : w.applyFault = none) :
    (migrations w).db.applied = w.lineage ∧ (migrations w).applyCalled = true ∧
    (migrations w).appliedNow = (w.lineage.drop w.db.applied.length).length ∧
    (migrations w).exitCode = none ∧ (migrations w).stopped = true := by
  simp [migrations, he, hd, hb, ha, behind_append_drop w hb]

theorem migrations_run_behind_fault (w : MigrationsWorld)
    (he : w.ensureFault = none) (hd : w.diagnoseFault = none)
    (hb : diagnoseMigrationHistory w.lineage w.db.applied = .databaseIsBehind)
    (n : Nat) (e : JsError) (ha : w.applyFault = some (n, e)) :
    (migrations w).db.applied =
      w.db.applied ++ (w.lineage.drop w.db.applied.length).take n ∧
    (migrations w).exitCode = some 1 ∧ (migrations w).stopped = true ∧
    (migrations w).applyCalled = true ∧
    (migrations w).errorLogs = catchLogs w.databaseUrl e := by
  simp [migrations, he, hd, hb, ha]

/-! ### Claim theorems -/

/-- C1 counterexample: on a store whose history matches no prefix of the
lineage the diagnosis is `driftedOrUnknown`, yet `migrations` does not
terminate the process: it stops the engine and returns normally, exactly as
in the up-to-date case, refuting the claim that every such outcome is
fatal. -/
theorem migrations_drift_counterexample :
    diagnoseMigrationHistory driftWorld.lineage driftWorld.db.applied =
      .driftedOrUnknown ∧
    (migrations driftWorld).exitCode = none ∧
    (migrations driftWorld).stopped = true ∧
    (migrations driftWorld).applyCalled = false := by
  refine ⟨by decide, by decide, by decide, by decide⟩

/-- C1 (amended): for every diagnosis outcome other than `databaseIsBehind`
(so in particular for a `driftedOrUnknown` history), `migrations` applies
nothing, but it is not fatal: it releases the session and returns normally,
treating the store exactly like an up-to-date one. -/
theorem migrations_nonBehind_not_fatal (w : MigrationsWorld)
    (he : w.ensureFault = none) (hd : w.diagnoseFault = none)
    (hndb : diagnoseMigrationHistory w.lineage w.db.applied ≠ .databaseIsBehind) :
    (migrations w).applyCalled = false ∧ (migrations w).exitCode = none ∧
    (migrations w).stopped = true ∧
    (migrations w).db.applied = w.db.applied := by
  simp [migrations, he, hd, hndb]

/-- C1 witness: the amended theorem evaluated on the concrete drifted
store. -/
theorem migrations_nonBehind_not_fatal_witness :
    (migrations driftWorld).applyCalled = false ∧
    (migrations driftWorld).exitCode = none ∧
    (migrations driftWorld).stopped = true ∧
    (migrations driftWorld).db.applied = driftWorld.db.applied :=
  migrations_nonBehind_not_fatal driftWorld rfl rfl (by decide)

/-- C2 counterexample: when diagnosis itself throws, the catch block logs and
exits with status 1 without ever calling `migrate.stop()`, refuting the claim
that the session is released on every exit path. -/
theorem migrations_stop_skipped_counterexample :
    (migrations diagnoseFaultWorld).stopped = false ∧
    (migrations diagnoseFaultWorld).exitCode = some 1 := by
  refine ⟨by decide, by decide⟩

/-- C2 (amended): `migrate.stop()` runs exactly on the paths that complete
diagnosis — the up-to-date return, the drifted return, and the apply path
including an apply failure — and is skipped when database creation or
diagnosis itself throws, in which case the process exits without releasing
the session. -/
theorem migrations_stop_iff_diagnosis_completes (w : MigrationsWorld) :
    (migrations w).stopped = (w.ensureFault.isNone && w.diagnoseFault.isNone) := by
  cases he : w.ensureFault with
  | some e => simp [migrations, he]
  | none =>
    cases hd : w.diagnoseFault with
    | some e => simp [migrations, he, hd]
    | none =>
      simp only [migrations, he, hd, Option.isNone_none, Bool.and_self]
      split
      · cases w.applyFault <;> simp
      · rfl

/-- C3: an up-to-date store makes `migrations` a no-op that never issues an
apply call, and so does a second sequential call; a freshly created empty
database receives the full expected lineage exactly once, after which the
next call is again apply-free. -/
theorem migrations_idempotent (w : MigrationsWorld)
    (he : w.ensureFault = none) (hd : w.diagnoseFault = none) :
    (w.db.applied = w.lineage →
      (migrations w).applyCalled = false ∧
      (migrations w).db.applied = w.lineage ∧
      (migrations w).exitCode = none ∧
      (migrations { w with db := (migrations w).db }).applyCalled = false ∧
      (migrations { w with db := (migrations w).db }).db.applied = w.lineage) ∧
    (w.db.applied = [] → w.applyFault = none →
      (migrations w).db.applied = w.lineage ∧
      (migrations w).appliedNow = w.lineage.length ∧
      (migrations w).exitCode = none ∧
      (migrations { w with db := (migrations w).db }).applyCalled = false ∧
      (migrations { w with db := (migrations w).db }).appliedNow = 0 ∧
      (migrations { w with db := (migrations w).db }).db.applied = w.lineage) := by
  constructor
  · intro hu
    obtain ⟨h1, h2, h3, _, _⟩ := migrations_run_upToDate w he hd hu
    obtain ⟨g1, g2, _, _, _⟩ :=
      migrations_run_upToDate { w with db := (migrations w).db } he hd (by simpa using h2)
    exact ⟨h1, h2, h3, g1, by simpa using g2⟩
  · intro h0 ha
    by_cases hl : w.lineage = []
    · have hu : w.db.applied = w.lineage := by rw [h0, hl]
      obtain ⟨_, h2, h3, h4, _⟩ := migrations_run_upToDate w he hd hu
      obtain ⟨g1, g2, _, g4, _⟩ :=
        migrations_run_upToDate { w with db := (migrations w).db } he hd (by simpa using h2)
      exact ⟨h2, by rw [h4, hl]; rfl, h3, g1, g4, by simpa using g2⟩
    · have hb : diagnoseMigrationHistory w.lineage w.db.applied = .databaseIsBehind := by
        have hne : ¬([] = w.lineage) := fun h => hl h.symm
        simp [diagnoseMigrationHistory, h0, hne]
      obtain ⟨b1, _, b3, b4, _⟩ := migrations_run_behind_ok w he hd hb ha
      obtain ⟨g1, g2, _, g4, _⟩ :=
        migrations_run_upToDate { w with db := (migrations w).db } he hd (by simpa using b1)
      refine ⟨b1, ?_, b4, g1, g4, by simpa using g2⟩
      rw [b3, h0]
      simp

/-- C3 witness: the theorem evaluated against the fresh empty database. -/
theorem migrations_idempotent_witness :
    (migrations freshWorld).db.applied = freshWorld.lineage ∧
    (migrations freshWorld).appliedNow = freshWorld.lineage.length ∧
    (migrations freshWorld).exitCode = none ∧
    (migrations { freshWorld with db := (migrations freshWorld).db }).applyCalled = false ∧
    (migrations { freshWorld with db := (migrations freshWorld).db }).appliedNow = 0 ∧
    (migrations { freshWorld with db := (migrations freshWorld).db }).db.applied =
      freshWorld.lineage :=
  (migrations_idempotent freshWorld rfl rfl).2 rfl rfl

/-- C4: every caught failure terminates with exit status 1; an error whose
message bears the `P1001` marker is reported with the distinct
unreachable-database line carrying the configured connection string, and any
other error with the generic line followed by the full error detail. -/
theorem migrations_error_classification (w : MigrationsWorld) (e : JsError)
    (hfault : w.ensureFault = some e ∨
      (w.ensureFault = none ∧ w.diagnoseFault = some e) ∨
      (w.ensureFault = none ∧ w.diagnoseFault = none ∧
        diagnoseMigrationHistory w.lineage w.db.applied = .databaseIsBehind ∧
        ∃ n, w.applyFault = some (n, e))) :
    (migrations w).exitCode = some 1 ∧
    (jsStartsWith e.message ("P1001") = true →
      (migrations w).errorLogs = [unreachableMessage w.databaseUrl]) ∧
    (jsStartsWith e.message ("P1001") = false →
      (migrations w).errorLogs = [genericFailureMessage, e.message]) ∧
    (∃ pre post, unreachableMessage w.databaseUrl = pre ++ w.databaseUrl ++ post) := by
  have hlog : (migrations w).exitCode = some 1 ∧
      (migrations w).errorLogs = catchLogs w.databaseUrl e := by
    rcases hfault with h1 | ⟨h1, h2⟩ | ⟨h1, h2, h3, n, h4⟩
    · simp [migrations, h1]
    · simp [migrations, h1, h2]
    · simp [migrations, h1, h2, h3, h4]
  refine ⟨hlog.1, ?_, ?_, ?_⟩
  · intro hp
    rw [hlog.2]
    simp [catchLogs, hp]
  · intro hp
    rw [hlog.2]
    simp [catchLogs, hp]
  · exact ⟨"Unable to connect to database `", "`, check your database connection", rfl⟩

/-- C4 witness: the theorem evaluated on the concrete `P1001` rejection of
the database-creation step. -/
theorem migrations_error_classification_witness :
    (migrations p1001World).exitCode = some 1 ∧
    (migrations p1001World).errorLogs = [unreachableMessage p1001World.databaseUrl] ∧
    ∃ pre post,
      unreachableMessage p1001World.databaseUrl =
        pre ++ p1001World.databaseUrl ++ post := by
  have h := migrations_error_classification p1001World
    { message := "P1001: Cannot reach database server" } (Or.inl rfl)
  exact ⟨h.1, h.2.1 (by decide), h.2.2.2⟩

/-- C5: on a behind store, a fault-free `migrations` call applies the pending
migrations as one unit so that the recorded history becomes exactly the
expected lineage; if the apply step throws after `n` pending migrations, the
`n` already-applied migrations stay recorded, no rollback happens, and the
process exits with status 1 after releasing the session. -/
theorem migrations_behind_fail_fast (w : MigrationsWorld)
    (he : w.ensureFault = none) (hd : w.diagnoseFault = none)
    (hb : diagnoseMigrationHistory w.lineage w.db.applied = .databaseIsBehind) :
    (w.applyFault = none →
      (migrations w).db.applied = w.lineage ∧
      (migrations w).applyCalled = true ∧
      (migrations w).exitCode = none) ∧
    (∀ n e, w.applyFault = some (n, e) →
      (migrations w).db.applied =
        w.db.applied ++ (w.lineage.drop w.db.applied.length).take n ∧
      (migrations w).exitCode = some 1 ∧
      (migrations w).stopped = true) := by
  constructor
  · intro ha
    obtain ⟨h1, h2, _, h4, _⟩ := migrations_run_behind_ok w he hd hb ha
    exact ⟨h1, h2, h4⟩
  · intro n e ha
    obtain ⟨h1, h2, h3, _, _⟩ := migrations_run_behind_fault w he hd hb n e ha
    exact ⟨h1, h2, h3⟩

/-- C5 witness: the theorem evaluated on the concrete behind store whose
apply step fails after one of the two pending migrations. -/
theorem migrations_behind_fail_fast_witness :
    (migrations behindFaultWorld).db.applied =
      behindFaultWorld.db.applied ++
        (behindFaultWorld.lineage.drop behindFaultWorld.db.applied.length).take 1 ∧
    (migrations behindFaultWorld).exitCode = some 1 ∧
    (migrations behindFaultWorld).stopped = true :=
  (migrations_behind_fail_fast behindFaultWorld rfl rfl (by decide)).2 1
    { message := "column already exists" } rfl

/-! ### Helper lemmas for the aggregator -/

theorem sortByCountDesc_perm {α : Type} (count : α → Nat) (l : List α) :
    (sortByCountDesc count l).Perm l :=
  List.perm_insertionSort _ l

theorem sortByCountDesc_sorted {α : Type} (count : α → Nat) (l : List α) :
    (sortByCountDesc count l).Pairwise (fun a b => count b ≤ count a) := by
  haveI : IsTotal α (fun a b => count b ≤ count a) :=
    ⟨fun a b => Nat.le_total (count b) (count a)⟩
  haveI : IsTrans α (fun a b => count b ≤ count a) :=
    ⟨fun _ _ _ hab hbc => Nat.le_trans hbc hab⟩
  exact List.sorted_insertionSort _ l

theorem sortByCountDesc_stable {α : Type} (count : α → Nat) (l : List α) (n : Nat) :
    (sortByCountDesc count l).filter (fun a => count a == n) =
      l.filter (fun a => count a == n) := by
  have hpw : (l.filter (fun a => count a == n)).Pairwise
      (fun a b => count b ≤ count a) := by
    apply List.pairwise_of_forall_mem_list
    intro a ha b hb
    have ha2 : count a = n := by simpa using List.of_mem_filter ha
    have hb2 : count b = n := by simpa using List.of_mem_filter hb
    omega
  have h1 : List.Sublist (l.filter (fun a => count a == n)) (sortByCountDesc count l) :=
    List.sublist_insertionSort hpw (List.filter_sublist l)
  have h2 : List.Sublist (l.filter (fun a => count a == n))
      ((sortByCountDesc count l).filter (fun a => count a == n)) := by
    have h3 := h1.filter (fun a => count a == n)
    simpa using h3
  have h4 : ((sortByCountDesc count l).filter (fun a => count a == n)).Perm
      (l.filter (fun a => count a == n)) :=
    (sortByCountDesc_perm count l).filter _
  exact (h2.eq_of_length h4.length_eq.symm).symm

theorem mem_dedupFirst {α : Type} [DecidableEq α] (a : α) :
    ∀ l : List α, a ∈ dedupFirst l ↔ a ∈ l := by
  intro l
  induction l with
  | nil => simp [dedupFirst]
  | cons x xs ih =>
    simp only [dedupFirst, List.mem_cons, List.mem_filter, ih]
    by_cases hax : a = x
    · simp [hax]
    · simp [hax]

theorem nodup_dedupFirst {α : Type} [DecidableEq α] :
    ∀ l : List α, (dedupFirst l).Nodup := by
  intro l
  induction l with
  | nil => simp [dedupFirst]
  | cons x xs ih =>
    rw [dedupFirst]
    refine List.nodup_cons.mpr ⟨?_, ih.filter _⟩
    intro hx
    simp [List.mem_filter] at hx

theorem countByUser_error (users : List User) :
    ∀ gs : List (Nat × Nat),
      (∃ g ∈ gs, users.find? (fun u => u.id = g.1) = none) →
      countByUser users gs = .error nullUserError := by
  intro gs
  induction gs with
  | nil => rintro ⟨g, hg, _⟩; cases hg
  | cons g gs ih =>
    rintro ⟨g0, hg0, hnone⟩
    rcases List.mem_cons.mp hg0 with heq | htail
    · subst heq
      simp [countByUser, hnone]
    · cases hf : users.find? (fun u => u.id = g.1) with
      | none => simp [countByUser, hf]
      | some u => simp [countByUser, hf, ih ⟨g0, htail, hnone⟩]

theorem countByUser_ok (users : List User) :
    ∀ gs : List (Nat × Nat),
      (∀ g ∈ gs, (users.find? (fun u => u.id = g.1)).isSome) →
      ∃ l, countByUser users gs = .ok l ∧
        List.Forall₂ (fun (g : Nat × Nat) (uc : UserCount) =>
          ∃ u, users.find? (fun v => v.id = g.1) = some u ∧
            uc = { username := u.username, count := g.2 }) gs l := by
  intro gs
  induction gs with
  | nil => intro _; exact ⟨[], rfl, List.Forall₂.nil⟩
  | cons g gs ih =>
    intro h
    have hg := h g (List.mem_cons_self g gs)
    cases hf : users.find? (fun u => u.id = g.1) with
    | none => simp [hf] at hg
    | some u =>
      obtain ⟨l, hl, hF⟩ := ih (fun g' hg' => h g' (List.mem_cons_of_mem _ hg'))
      refine ⟨{ username := u.username, count := g.2 } :: l, ?_, ?_⟩
      · simp [countByUser, hf, hl]
      · exact List.Forall₂.cons ⟨u, hf, rfl⟩ hF

theorem countByUserE_noFaults (users : List User) :
    ∀ gs, countByUserE noFaults users gs = countByUser users gs := by
  intro gs
  induction gs with
  | nil => rfl
  | cons g gs ih =>
    simp only [noFaults] at ih
    cases hf : users.find? (fun u => u.id = g.1) with
    | none => simp [countByUserE, countByUser, noFaults, hf]
    | some u => simp [countByUserE, countByUser, noFaults, hf, ih]

theorem getStatsE_noFaults (bth : Nat → String) (ds : Nat) (s : Store) :
    getStatsE noFaults bth ds s = getStats bth ds s := by
  have hc := countByUserE_noFaults s.users (groupByUserId s.images)
  cases h : countByUser s.users (groupByUserId s.images) with
  | error e =>
    rw [h] at hc
    simp only [noFaults] at hc
    simp [getStatsE, getStats, noFaults, hc, h]
  | ok l =>
    rw [h] at hc
    simp only [noFaults] at hc
    simp [getStatsE, getStats, noFaults, hc, h]

theorem getStats_ok_shape (bth : Nat → String) (ds : Nat) (s : Store) (st : Stats)
    (h : getStats bth ds s = .ok st) :
    ∃ l, countByUser s.users (groupByUserId s.images) = .ok l ∧
      st = { size := bth ds, size_num := ds, count := s.images.length,
             count_by_user := sortByCountDesc UserCount.count l,
             count_users := s.users.length,
             views_count := (aggViews s.images).getD 0,
             types_count := sortByCountDesc TypeCount.count
               ((groupByMimetype s.images).map
                 (fun g => { mimetype := g.1, count := g.2 })) } := by
  cases hc : countByUser s.users (groupByUserId s.images) with
  | error e => simp [getStats, hc] at h
  | ok l =>
    refine ⟨l, rfl, ?_⟩
    simp only [getStats, hc] at h
    exact (Except.ok.inj h).symm

theorem countByUserE_noFindFaults (f : QueryFaults) (users : List User)
    (hfe : ∀ u, f.findUserErr u = none) :
    ∀ gs, countByUserE f users gs = countByUser users gs := by
  intro gs
  induction gs with
  | nil => rfl
  | cons g gs ih =>
    cases hfind : users.find? (fun u => u.id = g.1) with
    | none => simp [countByUserE, countByUser, hfe, hfind]
    | some u => simp [countByUserE, countByUser, hfe, hfind, ih]

theorem countByUserE_ok_no_fault (f : QueryFaults) (users : List User) :
    ∀ gs l, countByUserE f users gs = .ok l →
      ∀ g ∈ gs, f.findUserErr g.1 = none := by
  intro gs
  induction gs with
  | nil => intro l _ g hg; cases hg
  | cons g0 gs ih =>
    intro l h g hg
    cases hferr : f.findUserErr g0.1 with
    | some e => simp [countByUserE, hferr] at h
    | none =>
      rcases List.mem_cons.mp hg with heq | htail
      · subst heq; exact hferr
      · cases hfind : users.find? (fun u => u.id = g0.1) with
        | none => simp [countByUserE, hferr, hfind] at h
        | some u =>
          cases hrec : countByUserE f users gs with
          | error e => simp [countByUserE, hferr, hfind, hrec] at h
          | ok rest => exact ih rest hrec g htail

theorem forall₂_mem_left {α β : Type} {R : α → β → Prop} :
    ∀ {l1 : List α} {l2 : List β}, List.Forall₂ R l1 l2 →
      ∀ a ∈ l1, ∃ b ∈ l2, R a b := by
  intro l1 l2 h
  induction h with
  | nil => intro a ha; cases ha
  | cons hR hF ih =>
    intro a ha
    rcases List.mem_cons.mp ha with heq | htail
    · subst heq; exact ⟨_, List.mem_cons_self _ _, hR⟩
    · obtain ⟨b, hb, hRb⟩ := ih a htail
      exact ⟨b, List.mem_cons_of_mem _ hb, hRb⟩

/-! ### Claim theorems for the aggregator -/

/-- C6: whenever `getStats` returns a report, both `count_by_user` and
`types_count` are sorted descending by count, and ties are left in the
order the underlying grouping produced: filtering either returned list to
any fixed count gives exactly the corresponding pre-sort list filtered to
that count. -/
theorem getStats_sorted_desc (bth : Nat → String) (ds : Nat) (s : Store)
    (st : Stats) (h : getStats bth ds s = .ok st) :
    st.count_by_user.Pairwise (fun a b => b.count ≤ a.count) ∧
    st.types_count.Pairwise (fun a b => b.count ≤ a.count) ∧
    (∀ l, countByUser s.users (groupByUserId s.images) = .ok l →
      ∀ n, st.count_by_user.filter (fun a => a.count == n) =
        l.filter (fun a => a.count == n)) ∧
    (∀ n, st.types_count.filter (fun a => a.count == n) =
      ((groupByMimetype s.images).map
        (fun g => ({ mimetype := g.1, count := g.2 } : TypeCount))).filter
        (fun a => a.count == n)) := by
  obtain ⟨l0, hc, hst⟩ := getStats_ok_shape bth ds s st h
  subst hst
  refine ⟨?_, ?_, ?_, ?_⟩
  · simpa using sortByCountDesc_sorted UserCount.count l0
  · simpa using sortByCountDesc_sorted TypeCount.count _
  · intro l hl n
    rw [hc] at hl
    rw [← Except.ok.inj hl]
    simpa using sortByCountDesc_stable UserCount.count l0 n
  · intro n
    simpa using sortByCountDesc_stable TypeCount.count _ n

/-- C6 witness: the theorem evaluated on the concrete sample store. -/
theorem getStats_sorted_desc_witness :
    sampleStats.count_by_user.Pairwise (fun a b => b.count ≤ a.count) ∧
    sampleStats.types_count.Pairwise (fun a b => b.count ≤ a.count) := by
  have h := getStats_sorted_desc constBth 12 sampleStore sampleStats rfl
  exact ⟨h.1, h.2.1⟩

/-- C7: the returned `views_count` is exactly the sum of the per-object view
counters; on an empty object table the aggregate is null and coalesces to
zero; and any reordering of the objects yields the same value, so the
result is independent of aggregation order. -/
theorem getStats_views_total (bth : Nat → String) (ds : Nat) (s : Store)
    (st : Stats) (h : getStats bth ds s = .ok st) :
    st.views_count = (s.images.map Image.views).sum ∧
    (s.images = [] → aggViews s.images = none ∧ st.views_count = 0) ∧
    (∀ imgs : List Image, imgs.Perm s.images →
      (aggViews imgs).getD 0 = st.views_count) := by
  obtain ⟨l0, _, hst⟩ := getStats_ok_shape bth ds s st h
  have hagg : ∀ imgs : List Image,
      (aggViews imgs).getD 0 = (imgs.map Image.views).sum := by
    intro imgs
    cases imgs with
    | nil => simp [aggViews]
    | cons i is => simp [aggViews]
  have hv : st.views_count = (aggViews s.images).getD 0 := by
    rw [hst]
  refine ⟨?_, ?_, ?_⟩
  · rw [hv, hagg]
  · intro he
    refine ⟨by simp [he, aggViews], ?_⟩
    rw [hv, he]
    simp [aggViews]
  · intro imgs hp
    rw [hv, hagg imgs, hagg s.images]
    exact (hp.map Image.views).sum_eq

/-- C7 witness: the theorem evaluated on the sample store, with the
order-independence conjunct exercised on a reordered object list. -/
theorem getStats_views_total_witness :
    sampleStats.views_count = (sampleStore.images.map Image.views).sum ∧
    (aggViews
      [ { userId := 2, mimetype := "application/json", views := 0 },
        { userId := 1, mimetype := "image/png", views := 4 },
        { userId := 1, mimetype := "image/png", views := 3 } ]).getD 0 =
      sampleStats.views_count := by
  have h := getStats_views_total constBth 12 sampleStore sampleStats rfl
  exact ⟨h.1, h.2.2 _ (by decide)⟩

/-- C8: on the empty store with a datasource reporting zero occupied bytes,
`getStats` succeeds with raw size 0, object count 0, user count 0, view
count 0, and empty per-user and per-type lists (the human-readable size
being the external byte formatter applied to 0). -/
theorem getStats_empty_store (bth : Nat → String) :
    getStats bth 0 { images := [], users := [] } =
      .ok { size := bth 0, size_num := 0, count := 0, count_by_user := [],
            count_users := 0, views_count := 0, types_count := [] } :=
  rfl

/-- C9: if any sub-query of the report rejects, the whole call fails with an
error and produces no report; when no sub-query rejects, the call returns
exactly the pure function of the store state, the embedding of the
read-only computation. -/
theorem getStats_no_partial_failure (f : QueryFaults) (bth : Nat → String)
    (ds : Nat) (s : Store) :
    (hasQueryFault f s → ∃ e, getStatsE f bth ds s = .error e) ∧
    ((∀ u, f.findUserErr u = none) → f.fullSizeErr = none →
      f.groupByUserErr = none → f.countUsersErr = none → f.countErr = none →
      f.aggregateErr = none → f.groupByTypeErr = none →
      getStatsE f bth ds s = getStats bth ds s) := by
  constructor
  · intro hfault
    cases hfs : f.fullSizeErr with
    | some e => exact ⟨e, by simp [getStatsE, hfs]⟩
    | none =>
    cases hgb : f.groupByUserErr with
    | some e => exact ⟨e, by simp [getStatsE, hfs, hgb]⟩
    | none =>
    cases hcu : f.countUsersErr with
    | some e => exact ⟨e, by simp [getStatsE, hfs, hgb, hcu]⟩
    | none =>
    cases hcb : countByUserE f s.users (groupByUserId s.images) with
    | error e => exact ⟨e, by simp [getStatsE, hfs, hgb, hcu, hcb]⟩
    | ok l =>
    cases hct : f.countErr with
    | some e => exact ⟨e, by simp [getStatsE, hfs, hgb, hcu, hcb, hct]⟩
    | none =>
    cases hag : f.aggregateErr with
    | some e => exact ⟨e, by simp [getStatsE, hfs, hgb, hcu, hcb, hct, hag]⟩
    | none =>
    cases hgt : f.groupByTypeErr with
    | some e => exact ⟨e, by simp [getStatsE, hfs, hgb, hcu, hcb, hct, hag, hgt]⟩
    | none =>
      exfalso
      rcases hfault with hx | hx | hx | ⟨g, hg, hne⟩ | hx | hx | hx
      · exact hx hfs
      · exact hx hgb
      · exact hx hcu
      · exact hne (countByUserE_ok_no_fault f s.users _ l hcb g hg)
      · exact hx hct
      · exact hx hag
      · exact hx hgt
  · intro hfe h1 h2 h3 h4 h5 h6
    have hcb := countByUserE_noFindFaults f s.users hfe (groupByUserId s.images)
    cases hc : countByUser s.users (groupByUserId s.images) with
    | error e =>
      rw [hc] at hcb
      simp [getStatsE, getStats, h1, h2, h3, h4, h5, h6, hcb, hc]
    | ok l =>
      rw [hc] at hcb
      simp [getStatsE, getStats, h1, h2, h3, h4, h5, h6, hcb, hc]

/-- C9 witness: a rejected datasource-size query fails the whole call, and
the fault-free engine computes the pure report. -/
theorem getStats_no_partial_failure_witness :
    (∃ e, getStatsE faultyEngine constBth 12 sampleStore = .error e) ∧
    getStatsE noFaults constBth 12 sampleStore = getStats constBth 12 sampleStore :=
  ⟨(getStats_no_partial_failure faultyEngine constBth 12 sampleStore).1
      (Or.inl (by simp [faultyEngine, noFaults])),
   (getStats_no_partial_failure noFaults constBth 12 sampleStore).2
      (fun _ => rfl) rfl rfl rfl rfl rfl rfl⟩

/-- C10: the owner lookup dereferences the fetched user with no null check:
whenever some object's owner id matches no user row, `getStats` fails with
the null-dereference TypeError; and under the precondition that every owner
resolves, the call succeeds with exactly one entry per distinct owner,
carrying that owner's username and group count. -/
theorem getStats_owner_lookup_null_deref (bth : Nat → String) (ds : Nat) (s : Store) :
    ((∃ i ∈ s.images, ∀ u ∈ s.users, u.id ≠ i.userId) →
      getStats bth ds s = .error nullUserError) ∧
    ((∀ i ∈ s.images, ∃ u ∈ s.users, u.id = i.userId) →
      ∃ st, getStats bth ds s = .ok st ∧
        st.count_by_user.length = (dedupFirst (s.images.map Image.userId)).length ∧
        (dedupFirst (s.images.map Image.userId)).Nodup ∧
        ∀ g ∈ groupByUserId s.images, ∃ u,
          s.users.find? (fun v => v.id = g.1) = some u ∧
          ({ username := u.username, count := g.2 } : UserCount) ∈
            st.count_by_user) := by
  constructor
  · rintro ⟨i, hi, hbad⟩
    have hkey : i.userId ∈ dedupFirst (s.images.map Image.userId) :=
      (mem_dedupFirst _ _).mpr (List.mem_map_of_mem Image.userId hi)
    have hgrp : (i.userId,
        (s.images.filter (fun x => x.userId = i.userId)).length) ∈
        groupByUserId s.images :=
      List.mem_map_of_mem _ hkey
    have hnone : s.users.find? (fun u => u.id = i.userId) = none := by
      rw [List.find?_eq_none]
      intro u hu
      simpa using hbad u hu
    have herr := countByUser_error s.users (groupByUserId s.images)
      ⟨_, hgrp, hnone⟩
    simp [getStats, herr]
  · intro hres
    have hsome : ∀ g ∈ groupByUserId s.images,
        (s.users.find? (fun u => u.id = g.1)).isSome := by
      intro g hg
      obtain ⟨k, hk, hkey⟩ := List.mem_map.mp hg
      obtain ⟨i, hi, hik⟩ := List.mem_map.mp ((mem_dedupFirst _ _).mp hk)
      obtain ⟨u, hu, hid⟩ := hres i hi
      rw [List.find?_isSome]
      refine ⟨u, hu, ?_⟩
      simp [hid, hik, ← hkey]
    obtain ⟨l, hl, hF⟩ := countByUser_ok s.users (groupByUserId s.images) hsome
    refine ⟨{ size := bth ds, size_num := ds, count := s.images.length,
              count_by_user := sortByCountDesc UserCount.count l,
              count_users := s.users.length,
              views_count := (aggViews s.images).getD 0,
              types_count := sortByCountDesc TypeCount.count
                ((groupByMimetype s.images).map
                  (fun g => { mimetype := g.1, count := g.2 })) },
            by simp [getStats, hl], ?_, nodup_dedupFirst _, ?_⟩
    · have h1 : (sortByCountDesc UserCount.count l).length = l.length :=
        (sortByCountDesc_perm UserCount.count l).length_eq
      have h2 : l.length = (groupByUserId s.images).length := hF.length_eq.symm
      simpa [groupByUserId, groupByKey] using h1.trans h2
    · intro g hg
      obtain ⟨uc, huc, u, hfind, hueq⟩ := forall₂_mem_left hF g hg
      refine ⟨u, hfind, ?_⟩
      rw [← hueq]
      simpa using ((sortByCountDesc_perm UserCount.count l).mem_iff).mpr huc

/-- C10 witness: the theorem evaluated on the orphan-owner store (failure)
and on the fully resolvable sample store (success). -/
theorem getStats_owner_lookup_null_deref_witness :
    getStats constBth 0 orphanStore = .error nullUserError ∧
    (∃ st, getStats constBth 12 sampleStore = .ok st ∧
      st.count_by_user.length =
        (dedupFirst (sampleStore.images.map Image.userId)).length ∧
      (dedupFirst (sampleStore.images.map Image.userId)).Nodup ∧
      ∀ g ∈ groupByUserId sampleStore.images, ∃ u,
        sampleStore.users.find? (fun v => v.id = g.1) = some u ∧
        ({ username := u.username, count := g.2 } : UserCount) ∈
          st.count_by_user) :=
  ⟨(getStats_owner_lookup_null_deref constBth 0 orphanStore).1 (by decide),
   (getStats_owner_lookup_null_deref constBth 12 sampleStore).2 (by decide)⟩

end Zipline
